import Mathlib

/-!
Shallow embedding of the order-matching core of `src/app.py` (a Streamlit
betting app backed by MongoDB collections of order and trade documents).

The per-market order book is modelled as a `List Order` (the `orders`
collection); trades as a `List Trade` (the `trades` collection).  MongoDB
operations are modelled as pure list transformations:
`find_one(..., sort=[("price", -1), ("timestamp", 1)])` becomes a fold that
picks the best element under the corresponding strict order (first document
wins ties, matching natural collection order), `delete_one` removes the
first document whose `order_id` matches, and `update_one` with `$set` /
`$inc` rewrites the first matching document.  Python integers are `Int`.
-/

namespace ThesisBetting

/-- An order document, mirroring the dictionary built at `src/app.py:365`:
`order_id`, `market_id`, `user_id`, `type` ("buy" or "sell"), `price`,
`volume`, `timestamp`.  `order_id` (a uuid string in the source) and
`timestamp` (a datetime) are modelled as `Nat`. -/
structure Order where
  order_id : Nat
  market_id : String
  user_id : String
  type : String
  price : Int
  volume : Int
  timestamp : Nat
deriving DecidableEq

/-- A trade document, mirroring the dictionary built at `src/app.py:53`.
The opaque `trade_id` (uuid) and `timestamp` fields are attached
separately by `attachIds` below, so that the observable content of a trade
is the part the matching logic actually determines. -/
structure Trade where
  market_id : String
  buy_order_id : Nat
  sell_order_id : Nat
  buy_id : String
  sell_id : String
  price : Int
  volume : Int
deriving DecidableEq

/-- The buy-side documents of a market: the filter
`{"market_id": selected_market, "type": "buy"}`. -/
def buySide (m : String) (book : List Order) : List Order :=
  book.filter (fun o => o.market_id == m && o.type == "buy")

/-- The sell-side documents of a market: the filter
`{"market_id": selected_market, "type": "sell"}`. -/
def sellSide (m : String) (book : List Order) : List Order :=
  book.filter (fun o => o.market_id == m && o.type == "sell")

/-- `a` precedes `b` under `sort=[("price", -1), ("timestamp", 1)]`:
strictly higher price, or equal price and strictly earlier timestamp. -/
def bidBetter (a b : Order) : Bool :=
  decide (b.price < a.price) || (decide (a.price = b.price) && decide (a.timestamp < b.timestamp))

/-- `a` precedes `b` under `sort=[("price", 1), ("timestamp", 1)]`:
strictly lower price, or equal price and strictly earlier timestamp. -/
def askBetter (a b : Order) : Bool :=
  decide (a.price < b.price) || (decide (a.price = b.price) && decide (a.timestamp < b.timestamp))

/-- `find_one` with a sort order: the first document of the list that no
later document strictly precedes; among documents tied under `better`, the
earliest in collection order is returned. -/
def pickBest (better : Order → Order → Bool) : List Order → Option Order
  | [] => none
  | o :: os =>
    match pickBest better os with
    | none => some o
    | some b => if better b o then some b else some o

/-- `src/app.py:20`: the highest buy order of the market
(`sort=[("price", -1), ("timestamp", 1)]`). -/
def best_bid (m : String) (book : List Order) : Option Order :=
  pickBest bidBetter (buySide m book)

/-- `src/app.py:26`: the lowest sell order of the market
(`sort=[("price", 1), ("timestamp", 1)]`). -/
def best_ask (m : String) (book : List Order) : Option Order :=
  pickBest askBetter (sellSide m book)

/-- `orders_col.delete_one({"order_id": oid})`: remove the first document
with the given `order_id`. -/
def deleteOne (oid : Nat) : List Order → List Order
  | [] => []
  | o :: os => if o.order_id = oid then os else o :: deleteOne oid os

/-- `orders_col.update_one({"order_id": oid}, {"$set": {"volume": v}})`:
set the volume of the first document with the given `order_id`. -/
def updateVolume (oid : Nat) (v : Int) : List Order → List Order
  | [] => []
  | o :: os => if o.order_id = oid then { o with volume := v } :: os else o :: updateVolume oid v os

/-- `orders_col.update_one({"order_id": oid}, {"$inc": {"volume": d}})`:
increment the volume of the first document with the given `order_id`. -/
def incVolume (oid : Nat) (d : Int) : List Order → List Order
  | [] => []
  | o :: os =>
    if o.order_id = oid then { o with volume := o.volume + d } :: os else o :: incVolume oid d os

/-- The trade record built at `src/app.py:53` from a crossing pair:
`trade_volume = min(highest_buy['volume'], lowest_sell['volume'])`,
`trade_price = lowest_sell['price']`. -/
def mkTrade (m : String) (highest_buy lowest_sell : Order) : Trade :=
  { market_id := m
    buy_order_id := highest_buy.order_id
    sell_order_id := lowest_sell.order_id
    buy_id := highest_buy.user_id
    sell_id := lowest_sell.user_id
    price := lowest_sell.price
    volume := min highest_buy.volume lowest_sell.volume }

/-- The post-trade update applied to each side of a filled pair
(`src/app.py:66-74` for the buy order, `src/app.py:76-84` for the sell
order): `$set` the order's volume to its old volume minus the trade
volume if that is still positive, otherwise delete the order. -/
def reduceOrder (o : Order) (trade_volume : Int) (book : List Order) : List Order :=
  if 0 < o.volume - trade_volume then
    updateVolume o.order_id (o.volume - trade_volume) book
  else
    deleteOne o.order_id book

/-- The book mutation of one executed trade, `src/app.py:66-84`: reduce the
buy order's volume by the trade volume, deleting it when the new volume is
not positive, then do the same for the sell order. -/
def tradeBook (highest_buy lowest_sell : Order) (book : List Order) : List Order :=
  let trade_volume := min highest_buy.volume lowest_sell.volume
  reduceOrder lowest_sell trade_volume (reduceOrder highest_buy trade_volume book)

/-- The book after one non-exiting iteration of the matching loop on the
crossing pair `(highest_buy, lowest_sell)`: the self-trade branch
(`src/app.py:41-46`) deletes the resting buy order, the trade branch
(`src/app.py:48-84`) applies `tradeBook`. -/
def nextBook (highest_buy lowest_sell : Order) (book : List Order) : List Order :=
  if highest_buy.user_id = lowest_sell.user_id ∧ highest_buy.user_id ≠ "Charlie" then
    deleteOne highest_buy.order_id book
  else
    tradeBook highest_buy lowest_sell book

/-- The `while True` loop of `match_orders` (`src/app.py:18-90`), with an
explicit fuel argument for the recursion.  Each iteration fetches the best
bid and ask; exits when a side is empty or the prices do not cross; on a
disallowed self-trade (same user, not "Charlie") deletes the resting buy
order and continues; otherwise records a trade and applies the volume
updates.  Returns the trades in execution order and the final book. -/
def matchLoop (m : String) : Nat → List Order → List Trade × List Order
  | 0, book => ([], book)
  | fuel + 1, book =>
    match best_bid m book, best_ask m book with
    | some highest_buy, some lowest_sell =>
      if lowest_sell.price ≤ highest_buy.price then
        if highest_buy.user_id = lowest_sell.user_id ∧ highest_buy.user_id ≠ "Charlie" then
          matchLoop m fuel (deleteOne highest_buy.order_id book)
        else
          let r := matchLoop m fuel (tradeBook highest_buy lowest_sell book)
          (mkTrade m highest_buy lowest_sell :: r.1, r.2)
      else ([], book)
    | _, _ => ([], book)

/-- `match_orders(selected_market)` (`src/app.py:14-95`): the crossing loop
run to completion.  One unit of fuel per resident order suffices because
every non-exiting iteration removes at least one order document (proved in
`matchLoop_fuel_irrelevant` below). -/
def match_orders (m : String) (book : List Order) : List Trade × List Order :=
  matchLoop m (book.length + 1) book

/-- No live cross remains: a side is empty, or the best bid price is
strictly below the best ask price. -/
def noCross (m : String) (book : List Order) : Bool :=
  match best_bid m book, best_ask m book with
  | some highest_buy, some lowest_sell => decide (highest_buy.price < lowest_sell.price)
  | _, _ => true

/-- Total resident volume of a list of order documents. -/
def totalVol (l : List Order) : Int :=
  (l.map Order.volume).sum

/-- Total traded volume of a list of trade documents. -/
def sumTradeVol (ts : List Trade) : Int :=
  (ts.map Trade.volume).sum

/-- Every resident order has positive volume (the Order invariant of the
data model: volume is validated into 1..10 before insertion). -/
def allVolPos (l : List Order) : Prop :=
  ∀ o ∈ l, 0 < o.volume

/-- Order ids are pairwise distinct (orders are keyed by fresh uuids). -/
def uniqueIds (l : List Order) : Prop :=
  (l.map Order.order_id).Nodup

instance (l : List Order) : Decidable (allVolPos l) := by
  unfold allVolPos; infer_instance

instance (l : List Order) : Decidable (uniqueIds l) := by
  unfold uniqueIds; infer_instance

/-- Instrumented variant of `matchLoop` that additionally accumulates the
total volume of buy orders removed by the self-trade resolution branch
(`src/app.py:44`).  `matchLoopG_eq` below proves that its first two
components coincide with `matchLoop`, so the instrumentation is a ghost
observer of the same computation. -/
def matchLoopG (m : String) : Nat → List Order → List Trade × List Order × Int
  | 0, book => ([], book, 0)
  | fuel + 1, book =>
    match best_bid m book, best_ask m book with
    | some highest_buy, some lowest_sell =>
      if lowest_sell.price ≤ highest_buy.price then
        if highest_buy.user_id = lowest_sell.user_id ∧ highest_buy.user_id ≠ "Charlie" then
          let r := matchLoopG m fuel (deleteOne highest_buy.order_id book)
          (r.1, r.2.1, highest_buy.volume + r.2.2)
        else
          let r := matchLoopG m fuel (tradeBook highest_buy lowest_sell book)
          (mkTrade m highest_buy lowest_sell :: r.1, r.2.1, r.2.2)
      else ([], book, 0)
    | _, _ => ([], book, 0)

/-- Total volume deleted by the self-trade resolution branch over a full
run of `match_orders`. -/
def selfRemovedVol (m : String) (book : List Order) : Int :=
  (matchLoopG m (book.length + 1) book).2.2

/-- Variant of `matchLoop` that records, for every emitted trade, the book
state from which its crossing pair was fetched: the recursion is the same
`while True` loop of `src/app.py:18-90`, with the trade branch emitting
the pair `(book, trade)` and recursing on the mutated book, so the first
component of each recorded pair is the book state the trade actually
matched against.  `matchLoopT_eq` below proves that dropping the recorded
books gives back `matchLoop` exactly. -/
def matchLoopT (m : String) : Nat → List Order → List (List Order × Trade) × List Order
  | 0, book => ([], book)
  | fuel + 1, book =>
    match best_bid m book, best_ask m book with
    | some highest_buy, some lowest_sell =>
      if lowest_sell.price ≤ highest_buy.price then
        if highest_buy.user_id = lowest_sell.user_id ∧ highest_buy.user_id ≠ "Charlie" then
          matchLoopT m fuel (deleteOne highest_buy.order_id book)
        else
          let r := matchLoopT m fuel (tradeBook highest_buy lowest_sell book)
          ((book, mkTrade m highest_buy lowest_sell) :: r.1, r.2)
      else ([], book)
    | _, _ => ([], book)

/-- A full `match_orders` run together with, for each emitted trade, the
book state it was matched from. -/
def match_orders_trace (m : String) (book : List Order) :
    List (List Order × Trade) × List Order :=
  matchLoopT m (book.length + 1) book

/-- Attach the opaque per-trade identifiers (`str(uuid.uuid4())` at
`src/app.py:54`) to a trade sequence: the k-th emitted trade receives the
k-th generated identifier. -/
def attachIds (gen : Nat → String) : Nat → List Trade → List (String × Trade)
  | _, [] => []
  | k, t :: ts => (gen k, t) :: attachIds gen (k + 1) ts

/-- A full run of `match_orders` together with the identifier generator
that stands for the uuid source: returns the identified trades and the
final book. -/
def match_orders_run (m : String) (gen : Nat → String) (book : List Order) :
    List (String × Trade) × List Order :=
  (attachIds gen 0 (match_orders m book).1, (match_orders m book).2)

/-- Bounds enforced by the price input widget,
`st.number_input("Price", min_value=0, max_value=100, step=1)`
(`src/app.py:351`). -/
def widget_price_ok (price : Int) : Bool :=
  decide (0 ≤ price) && decide (price ≤ 100)

/-- Bounds enforced by the volume input widget,
`st.number_input("Volume", min_value=1, max_value=10, step=1)`
(`src/app.py:352`). -/
def widget_volume_ok (volume : Int) : Bool :=
  decide (1 ≤ volume) && decide (volume ≤ 10)

/-- The full validation pipeline in front of the engine: the widget bounds
plus the handler checks at `src/app.py:356-363` (`logged_in`, rejection of
`price <= 0 or volume <= 0`, rejection of `volume > 10`). -/
def submission_accepted (logged_in : Bool) (price volume : Int) : Bool :=
  widget_price_ok price && widget_volume_ok volume && logged_in &&
    decide (0 < price) && decide (0 < volume) && decide (volume ≤ 10)

/-- The persistent state touched by the submission handler: the `orders`
and `trades` collections. -/
structure ExchangeState where
  orders : List Order
  trades : List Trade
deriving DecidableEq

/-- `buy_orders[0]` after `.sort("price", -1)` (`src/app.py:384`): ties are
not broken by timestamp in this fetch. -/
def priceOnlyBuyBetter (a b : Order) : Bool :=
  decide (b.price < a.price)

/-- `sell_orders[0]` after `.sort("price", 1)` (`src/app.py:385`). -/
def priceOnlySellBetter (a b : Order) : Bool :=
  decide (a.price < b.price)

/-- The inline single-shot matching block the submission handler runs
right after `match_orders` (`src/app.py:384-437`): re-fetch the books
sorted by price only, and if the single best pair crosses and is not a
disallowed self-trade, record one trade, `$inc` both volumes and delete
the orders whose original volume minus the trade volume is not positive. -/
def inline_block (m : String) (s : ExchangeState) : ExchangeState :=
  match pickBest priceOnlyBuyBetter (buySide m s.orders),
      pickBest priceOnlySellBetter (sellSide m s.orders) with
  | some highest_buy, some lowest_sell =>
    if lowest_sell.price ≤ highest_buy.price then
      if highest_buy.user_id = lowest_sell.user_id ∧ highest_buy.user_id ≠ "Charlie" then s
      else
        let trade_volume := min highest_buy.volume lowest_sell.volume
        let t := mkTrade m highest_buy lowest_sell
        let orders1 := incVolume highest_buy.order_id (-trade_volume) s.orders
        let orders2 := incVolume lowest_sell.order_id (-trade_volume) orders1
        let orders3 :=
          if highest_buy.volume - trade_volume ≤ 0 then
            deleteOne highest_buy.order_id orders2
          else orders2
        let orders4 :=
          if lowest_sell.volume - trade_volume ≤ 0 then
            deleteOne lowest_sell.order_id orders3
          else orders3
        { orders := orders4, trades := s.trades ++ [t] }
    else s
  | _, _ => s

/-- The submission handler (`src/app.py:355-437`) in the sequential
execution model: validate, insert the order document, run `match_orders`,
then run the inline single-shot block.  `oid` and `ts` stand for the fresh
uuid and the submission timestamp. -/
def submit_order (logged_in : Bool) (username selected_market order_type : String)
    (price volume : Int) (oid ts : Nat) (s : ExchangeState) : ExchangeState :=
  if submission_accepted logged_in price volume then
    let o : Order :=
      { order_id := oid, market_id := selected_market, user_id := username,
        type := order_type, price := price, volume := volume, timestamp := ts }
    let r := match_orders selected_market (s.orders ++ [o])
    inline_block selected_market { orders := r.2, trades := s.trades ++ r.1 }
  else s

/-- Specification-side handler for the refinement claim: validate, insert
the order document and run `match_orders` alone, with no inline block. -/
def submit_order_no_block (logged_in : Bool) (username selected_market order_type : String)
    (price volume : Int) (oid ts : Nat) (s : ExchangeState) : ExchangeState :=
  if submission_accepted logged_in price volume then
    let o : Order :=
      { order_id := oid, market_id := selected_market, user_id := username,
        type := order_type, price := price, volume := volume, timestamp := ts }
    let r := match_orders selected_market (s.orders ++ [o])
    { orders := r.2, trades := s.trades ++ r.1 }
  else s

/-- Self-trade scenario order: buy (user "Dana", price 70, volume 2). -/
def danaBuy : Order := ⟨1, "m1", "Dana", "buy", 70, 2, 0⟩

/-- Self-trade scenario order: sell (user "Dana", price 70, volume 2). -/
def danaSell : Order := ⟨2, "m1", "Dana", "sell", 70, 2, 1⟩

/-- The book holding the two "Dana" orders of the self-trade scenario. -/
def danaBook : List Order := [danaBuy, danaSell]

/-- Partial-fill scenario order: buy (user "Alice", price 60, volume 5). -/
def aliceBuy : Order := ⟨1, "m1", "Alice", "buy", 60, 5, 0⟩

/-- Partial-fill scenario order: sell (user "Bob", price 55, volume 3). -/
def bobSell : Order := ⟨2, "m1", "Bob", "sell", 55, 3, 1⟩

/-- The book of the partial-fill scenario. -/
def aliceBook : List Order := [aliceBuy, bobSell]

/-- Exhaustive-crossing scenario order: resting buy at price 80, volume 4. -/
def cexBuy : Order := ⟨1, "m1", "Alice", "buy", 80, 4, 0⟩

/-- Exhaustive-crossing scenario order: sell at price 50, volume 1. -/
def cexSell1 : Order := ⟨2, "m1", "Bob", "sell", 50, 1, 1⟩

/-- Exhaustive-crossing scenario order: sell at price 55, volume 3. -/
def cexSell2 : Order := ⟨3, "m1", "Carol", "sell", 55, 3, 2⟩

/-- The book of the exhaustive-crossing scenario. -/
def cexBook : List Order := [cexBuy, cexSell1, cexSell2]

/-! ### Properties of `pickBest` and the best-order fetches -/

theorem pickBest_eq_none {better : Order → Order → Bool} {l : List Order} :
    pickBest better l = none ↔ l = [] := by
  cases l with
  | nil => simp [pickBest]
  | cons o os =>
    simp only [pickBest]
    cases h : pickBest better os with
    | none => simp
    | some b => by_cases hb : better b o <;> simp [hb]

theorem pickBest_mem {better : Order → Order → Bool} {l : List Order} {b : Order}
    (h : pickBest better l = some b) : b ∈ l := by
  induction l with
  | nil => simp [pickBest] at h
  | cons o os ih =>
    simp only [pickBest] at h
    cases h' : pickBest better os with
    | none =>
      rw [h'] at h
      obtain rfl : o = b := Option.some.inj h
      exact List.mem_cons_self _ _
    | some c =>
      rw [h'] at h
      dsimp only at h
      by_cases hc : better c o
      · rw [if_pos hc] at h
        obtain rfl : c = b := Option.some.inj h
        exact List.mem_cons_of_mem _ (ih h')
      · rw [if_neg hc] at h
        obtain rfl : o = b := Option.some.inj h
        exact List.mem_cons_self _ _

theorem pickBest_opt {better : Order → Order → Bool}
    (hirr : ∀ a, better a a = false)
    (hasym : ∀ a b, better a b = true → better b a = false)
    (hneg : ∀ a b c, better a b = false → better b c = false → better a c = false)
    {l : List Order} {r : Order} (h : pickBest better l = some r) :
    ∀ x ∈ l, better x r = false := by
  induction l generalizing r with
  | nil => simp [pickBest] at h
  | cons o os ih =>
    simp only [pickBest] at h
    cases h' : pickBest better os with
    | none =>
      rw [h'] at h
      obtain rfl : o = r := Option.some.inj h
      intro x hx
      rcases List.mem_cons.mp hx with rfl | hx'
      · exact hirr x
      · rw [pickBest_eq_none.mp h'] at hx'
        simp at hx'
    | some c =>
      rw [h'] at h
      dsimp only at h
      by_cases hc : better c o
      · rw [if_pos hc] at h
        obtain rfl : c = r := Option.some.inj h
        intro x hx
        rcases List.mem_cons.mp hx with rfl | hx'
        · exact hasym _ _ hc
        · exact ih h' x hx'
      · rw [if_neg hc] at h
        obtain rfl : o = r := Option.some.inj h
        intro x hx
        rcases List.mem_cons.mp hx with rfl | hx'
        · exact hirr x
        · exact hneg _ _ _ (ih h' x hx') (by simpa using hc)

theorem bidBetter_irrefl (a : Order) : bidBetter a a = false := by
  simp [bidBetter]

theorem bidBetter_asymm (a b : Order) (h : bidBetter a b = true) : bidBetter b a = false := by
  simp only [bidBetter, Bool.or_eq_true, Bool.and_eq_true, decide_eq_true_eq,
    Bool.or_eq_false_iff, Bool.and_eq_false_iff, decide_eq_false_iff_not, not_lt] at h ⊢
  omega

theorem bidBetter_negtrans (a b c : Order) (h1 : bidBetter a b = false)
    (h2 : bidBetter b c = false) : bidBetter a c = false := by
  simp only [bidBetter, Bool.or_eq_false_iff, Bool.and_eq_false_iff,
    decide_eq_false_iff_not, not_lt] at h1 h2 ⊢
  omega

theorem askBetter_irrefl (a : Order) : askBetter a a = false := by
  simp [askBetter]

theorem askBetter_asymm (a b : Order) (h : askBetter a b = true) : askBetter b a = false := by
  simp only [askBetter, Bool.or_eq_true, Bool.and_eq_true, decide_eq_true_eq,
    Bool.or_eq_false_iff, Bool.and_eq_false_iff, decide_eq_false_iff_not, not_lt] at h ⊢
  omega

theorem askBetter_negtrans (a b c : Order) (h1 : askBetter a b = false)
    (h2 : askBetter b c = false) : askBetter a c = false := by
  simp only [askBetter, Bool.or_eq_false_iff, Bool.and_eq_false_iff,
    decide_eq_false_iff_not, not_lt] at h1 h2 ⊢
  omega

theorem mem_buySide_iff {m : String} {book : List Order} {o : Order} :
    o ∈ buySide m book ↔ o ∈ book ∧ o.market_id = m ∧ o.type = "buy" := by
  simp [buySide, List.mem_filter, and_assoc]

theorem mem_sellSide_iff {m : String} {book : List Order} {o : Order} :
    o ∈ sellSide m book ↔ o ∈ book ∧ o.market_id = m ∧ o.type = "sell" := by
  simp [sellSide, List.mem_filter, and_assoc]

theorem best_bid_mem {m : String} {book : List Order} {b : Order}
    (h : best_bid m book = some b) : b ∈ book ∧ b.market_id = m ∧ b.type = "buy" :=
  mem_buySide_iff.mp (pickBest_mem h)

theorem best_ask_mem {m : String} {book : List Order} {a : Order}
    (h : best_ask m book = some a) : a ∈ book ∧ a.market_id = m ∧ a.type = "sell" :=
  mem_sellSide_iff.mp (pickBest_mem h)

theorem best_bid_opt {m : String} {book : List Order} {b : Order}
    (h : best_bid m book = some b) :
    ∀ x ∈ buySide m book, x.price < b.price ∨ (x.price = b.price ∧ b.timestamp ≤ x.timestamp) := by
  intro x hx
  have := pickBest_opt bidBetter_irrefl bidBetter_asymm bidBetter_negtrans h x hx
  simp only [bidBetter, Bool.or_eq_false_iff, Bool.and_eq_false_iff,
    decide_eq_false_iff_not, not_lt] at this
  omega

theorem best_ask_opt {m : String} {book : List Order} {a : Order}
    (h : best_ask m book = some a) :
    ∀ x ∈ sellSide m book, a.price < x.price ∨ (x.price = a.price ∧ a.timestamp ≤ x.timestamp) := by
  intro x hx
  have := pickBest_opt askBetter_irrefl askBetter_asymm askBetter_negtrans h x hx
  simp only [askBetter, Bool.or_eq_false_iff, Bool.and_eq_false_iff,
    decide_eq_false_iff_not, not_lt] at this
  omega

theorem best_bid_price_max {m : String} {book : List Order} {b : Order}
    (h : best_bid m book = some b) : ∀ x ∈ buySide m book, x.price ≤ b.price := by
  intro x hx
  rcases best_bid_opt h x hx with h' | h'
  · exact le_of_lt h'
  · exact le_of_eq h'.1

theorem best_ask_price_min {m : String} {book : List Order} {a : Order}
    (h : best_ask m book = some a) : ∀ x ∈ sellSide m book, a.price ≤ x.price := by
  intro x hx
  rcases best_ask_opt h x hx with h' | h'
  · exact le_of_lt h'
  · exact le_of_eq h'.1.symm

/-! ### Properties of the document mutations -/

theorem deleteOne_sublist (oid : Nat) (l : List Order) : List.Sublist (deleteOne oid l) l := by
  induction l with
  | nil => simp [deleteOne]
  | cons o os ih =>
    simp only [deleteOne]
    by_cases h : o.order_id = oid
    · rw [if_pos h]
      exact (List.sublist_cons_self o os)
    · rw [if_neg h]
      exact ih.cons₂ o

theorem deleteOne_length_le (oid : Nat) (l : List Order) :
    (deleteOne oid l).length ≤ l.length :=
  (deleteOne_sublist oid l).length_le

theorem deleteOne_length_lt {oid : Nat} {l : List Order}
    (h : oid ∈ l.map Order.order_id) : (deleteOne oid l).length < l.length := by
  induction l with
  | nil => simp at h
  | cons o os ih =>
    simp only [List.map_cons, List.mem_cons] at h
    simp only [deleteOne]
    by_cases ho : o.order_id = oid
    · rw [if_pos ho]
      simp [Nat.lt_succ_self]
    · rw [if_neg ho]
      rcases h with h | h
      · exact absurd h.symm ho
      · simpa using Nat.succ_lt_succ (ih h)

theorem updateVolume_map_order_id (oid : Nat) (v : Int) (l : List Order) :
    (updateVolume oid v l).map Order.order_id = l.map Order.order_id := by
  induction l with
  | nil => simp [updateVolume]
  | cons o os ih =>
    simp only [updateVolume]
    by_cases h : o.order_id = oid
    · rw [if_pos h]; simp
    · rw [if_neg h]; simp [ih]

theorem updateVolume_length (oid : Nat) (v : Int) (l : List Order) :
    (updateVolume oid v l).length = l.length := by
  have := congrArg List.length (updateVolume_map_order_id oid v l)
  simpa using this

theorem mem_updateVolume_of_ne {oid : Nat} {v : Int} {l : List Order} {x : Order}
    (hne : x.order_id ≠ oid) (hx : x ∈ l) : x ∈ updateVolume oid v l := by
  induction l with
  | nil => simp at hx
  | cons o os ih =>
    simp only [updateVolume]
    rcases List.mem_cons.mp hx with rfl | hx'
    · rw [if_neg hne]
      exact List.mem_cons_self _ _
    · by_cases h : o.order_id = oid
      · rw [if_pos h]
        exact List.mem_cons_of_mem _ hx'
      · rw [if_neg h]
        exact List.mem_cons_of_mem _ (ih hx')

theorem mem_deleteOne_of_ne {oid : Nat} {l : List Order} {x : Order}
    (hne : x.order_id ≠ oid) (hx : x ∈ l) : x ∈ deleteOne oid l := by
  induction l with
  | nil => simp at hx
  | cons o os ih =>
    simp only [deleteOne]
    rcases List.mem_cons.mp hx with rfl | hx'
    · rw [if_neg hne]
      exact List.mem_cons_self _ _
    · by_cases h : o.order_id = oid
      · rw [if_pos h]; exact hx'
      · rw [if_neg h]
        exact List.mem_cons_of_mem _ (ih hx')

theorem allVolPos_deleteOne {oid : Nat} {l : List Order} (h : allVolPos l) :
    allVolPos (deleteOne oid l) :=
  fun o ho => h o ((deleteOne_sublist oid l).subset ho)

theorem allVolPos_updateVolume {oid : Nat} {v : Int} {l : List Order}
    (h : allVolPos l) (hv : 0 < v) : allVolPos (updateVolume oid v l) := by
  induction l with
  | nil => intro o ho; simp [updateVolume] at ho
  | cons o os ih =>
    have hos : allVolPos os := fun x hx => h x (List.mem_cons_of_mem _ hx)
    intro x hx
    simp only [updateVolume] at hx
    by_cases ho : o.order_id = oid
    · rw [if_pos ho] at hx
      rcases List.mem_cons.mp hx with rfl | hx'
      · exact hv
      · exact hos x hx'
    · rw [if_neg ho] at hx
      rcases List.mem_cons.mp hx with rfl | hx'
      · exact h x (List.mem_cons_self _ _)
      · exact ih hos x hx'

theorem uniqueIds_deleteOne {oid : Nat} {l : List Order} (h : uniqueIds l) :
    uniqueIds (deleteOne oid l) :=
  List.Nodup.sublist ((deleteOne_sublist oid l).map Order.order_id) h

theorem uniqueIds_updateVolume {oid : Nat} {v : Int} {l : List Order} (h : uniqueIds l) :
    uniqueIds (updateVolume oid v l) := by
  unfold uniqueIds at h ⊢
  rw [updateVolume_map_order_id]
  exact h

theorem ids_injective {l : List Order} (hu : uniqueIds l) {a b : Order}
    (ha : a ∈ l) (hb : b ∈ l) (hid : a.order_id = b.order_id) : a = b :=
  List.inj_on_of_nodup_map hu ha hb hid

theorem unique_decomp {l : List Order} {o : Order} (hu : uniqueIds l) (hmem : o ∈ l) :
    ∃ l1 l2, l = l1 ++ o :: l2 ∧ (∀ x ∈ l1, x.order_id ≠ o.order_id) ∧
      ∀ x ∈ l2, x.order_id ≠ o.order_id := by
  induction l with
  | nil => simp at hmem
  | cons a as ih =>
    have hu' : uniqueIds as := by
      unfold uniqueIds at hu ⊢
      exact (List.nodup_cons.mp hu).2
    have hna : a.order_id ∉ as.map Order.order_id := (List.nodup_cons.mp hu).1
    rcases List.mem_cons.mp hmem with rfl | hmem'
    · refine ⟨[], as, rfl, by simp, ?_⟩
      intro x hx hEq
      exact hna (hEq ▸ List.mem_map_of_mem _ hx)
    · obtain ⟨l1, l2, hdec, h1, h2⟩ := ih hu' hmem'
      refine ⟨a :: l1, l2, by simp [hdec], ?_, h2⟩
      intro x hx
      rcases List.mem_cons.mp hx with rfl | hx'
      · intro hEq
        exact hna (hEq ▸ List.mem_map_of_mem _ hmem')
      · exact h1 x hx'

theorem deleteOne_append_notin {oid : Nat} {l1 : List Order}
    (h : ∀ x ∈ l1, x.order_id ≠ oid) {o : Order} (ho : o.order_id = oid) (l2 : List Order) :
    deleteOne oid (l1 ++ o :: l2) = l1 ++ l2 := by
  induction l1 with
  | nil => simp [deleteOne, ho]
  | cons a l1' ih =>
    have ha : a.order_id ≠ oid := h a (List.mem_cons_self _ _)
    simp only [List.cons_append, deleteOne, if_neg ha, List.append_eq]
    rw [ih (fun x hx => h x (List.mem_cons_of_mem _ hx))]

theorem updateVolume_append_notin {oid : Nat} {v : Int} {l1 : List Order}
    (h : ∀ x ∈ l1, x.order_id ≠ oid) {o : Order} (ho : o.order_id = oid) (l2 : List Order) :
    updateVolume oid v (l1 ++ o :: l2) = l1 ++ { o with volume := v } :: l2 := by
  induction l1 with
  | nil => simp [updateVolume, ho]
  | cons a l1' ih =>
    have ha : a.order_id ≠ oid := h a (List.mem_cons_self _ _)
    simp only [List.cons_append, updateVolume, if_neg ha, List.append_eq]
    rw [ih (fun x hx => h x (List.mem_cons_of_mem _ hx))]

theorem buySide_append (m : String) (a b : List Order) :
    buySide m (a ++ b) = buySide m a ++ buySide m b := by
  simp [buySide]

theorem sellSide_append (m : String) (a b : List Order) :
    sellSide m (a ++ b) = sellSide m a ++ sellSide m b := by
  simp [sellSide]

theorem totalVol_append (a b : List Order) : totalVol (a ++ b) = totalVol a + totalVol b := by
  simp [totalVol]

theorem buySide_cons (m : String) (o : Order) (l : List Order) :
    buySide m (o :: l) =
      if o.market_id = m ∧ o.type = "buy" then o :: buySide m l else buySide m l := by
  by_cases h1 : o.market_id = m <;> by_cases h2 : o.type = "buy" <;>
    simp [buySide, List.filter_cons, h1, h2]

theorem sellSide_cons (m : String) (o : Order) (l : List Order) :
    sellSide m (o :: l) =
      if o.market_id = m ∧ o.type = "sell" then o :: sellSide m l else sellSide m l := by
  by_cases h1 : o.market_id = m <;> by_cases h2 : o.type = "sell" <;>
    simp [sellSide, List.filter_cons, h1, h2]

theorem totalVol_cons (o : Order) (l : List Order) :
    totalVol (o :: l) = o.volume + totalVol l := by
  simp [totalVol]

theorem totalVol_deleteOne_mem {book : List Order} {o : Order}
    (hu : uniqueIds book) (hmem : o ∈ book) :
    totalVol (deleteOne o.order_id book) = totalVol book - o.volume := by
  obtain ⟨l1, l2, rfl, h1, _⟩ := unique_decomp hu hmem
  rw [deleteOne_append_notin h1 rfl]
  simp only [totalVol_append, totalVol_cons]
  ring

theorem totalVol_updateVolume_mem {book : List Order} {o : Order}
    (hu : uniqueIds book) (hmem : o ∈ book) (v : Int) :
    totalVol (updateVolume o.order_id v book) = totalVol book - o.volume + v := by
  obtain ⟨l1, l2, rfl, h1, _⟩ := unique_decomp hu hmem
  rw [updateVolume_append_notin h1 rfl]
  simp only [totalVol_append, totalVol_cons]
  ring

theorem buySide_totalVol_deleteOne_buy {m : String} {book : List Order} {o : Order}
    (hu : uniqueIds book) (hmem : o ∈ book) (hm : o.market_id = m) (ht : o.type = "buy") :
    totalVol (buySide m (deleteOne o.order_id book)) = totalVol (buySide m book) - o.volume := by
  obtain ⟨l1, l2, rfl, h1, _⟩ := unique_decomp hu hmem
  rw [deleteOne_append_notin h1 rfl]
  simp only [buySide_append, buySide_cons, hm, ht, and_self, if_pos,
    totalVol_append, totalVol_cons]
  ring

theorem buySide_totalVol_updateVolume_buy {m : String} {book : List Order} {o : Order}
    (hu : uniqueIds book) (hmem : o ∈ book) (hm : o.market_id = m) (ht : o.type = "buy")
    (v : Int) :
    totalVol (buySide m (updateVolume o.order_id v book)) =
      totalVol (buySide m book) - o.volume + v := by
  obtain ⟨l1, l2, rfl, h1, _⟩ := unique_decomp hu hmem
  rw [updateVolume_append_notin h1 rfl]
  simp only [buySide_append, buySide_cons, hm, ht, and_self, if_pos,
    totalVol_append, totalVol_cons]
  ring

theorem sellSide_totalVol_deleteOne_sell {m : String} {book : List Order} {o : Order}
    (hu : uniqueIds book) (hmem : o ∈ book) (hm : o.market_id = m) (ht : o.type = "sell") :
    totalVol (sellSide m (deleteOne o.order_id book)) = totalVol (sellSide m book) - o.volume := by
  obtain ⟨l1, l2, rfl, h1, _⟩ := unique_decomp hu hmem
  rw [deleteOne_append_notin h1 rfl]
  simp only [sellSide_append, sellSide_cons, hm, ht, and_self, if_pos,
    totalVol_append, totalVol_cons]
  ring

theorem sellSide_totalVol_updateVolume_sell {m : String} {book : List Order} {o : Order}
    (hu : uniqueIds book) (hmem : o ∈ book) (hm : o.market_id = m) (ht : o.type = "sell")
    (v : Int) :
    totalVol (sellSide m (updateVolume o.order_id v book)) =
      totalVol (sellSide m book) - o.volume + v := by
  obtain ⟨l1, l2, rfl, h1, _⟩ := unique_decomp hu hmem
  rw [updateVolume_append_notin h1 rfl]
  simp only [sellSide_append, sellSide_cons, hm, ht, and_self, if_pos,
    totalVol_append, totalVol_cons]
  ring

theorem sellSide_deleteOne_buy {m : String} {book : List Order} {o : Order}
    (hu : uniqueIds book) (hmem : o ∈ book) (ht : o.type = "buy") :
    sellSide m (deleteOne o.order_id book) = sellSide m book := by
  obtain ⟨l1, l2, rfl, h1, _⟩ := unique_decomp hu hmem
  rw [deleteOne_append_notin h1 rfl]
  have hns : ¬(o.market_id = m ∧ o.type = "sell") := by
    rintro ⟨-, h⟩
    rw [ht] at h
    exact absurd h (by decide)
  simp [sellSide_append, sellSide_cons, hns]

theorem sellSide_updateVolume_buy {m : String} {book : List Order} {o : Order}
    (hu : uniqueIds book) (hmem : o ∈ book) (ht : o.type = "buy") (v : Int) :
    sellSide m (updateVolume o.order_id v book) = sellSide m book := by
  obtain ⟨l1, l2, rfl, h1, _⟩ := unique_decomp hu hmem
  rw [updateVolume_append_notin h1 rfl]
  have hns : ¬(o.market_id = m ∧ o.type = "sell") := by
    rintro ⟨-, h⟩
    rw [ht] at h
    exact absurd h (by decide)
  simp [sellSide_append, sellSide_cons, hns]

theorem buySide_deleteOne_sell {m : String} {book : List Order} {o : Order}
    (hu : uniqueIds book) (hmem : o ∈ book) (ht : o.type = "sell") :
    buySide m (deleteOne o.order_id book) = buySide m book := by
  obtain ⟨l1, l2, rfl, h1, _⟩ := unique_decomp hu hmem
  rw [deleteOne_append_notin h1 rfl]
  have hnb : ¬(o.market_id = m ∧ o.type = "buy") := by
    rintro ⟨-, h⟩
    rw [ht] at h
    exact absurd h (by decide)
  simp [buySide_append, buySide_cons, hnb]

theorem buySide_updateVolume_sell {m : String} {book : List Order} {o : Order}
    (hu : uniqueIds book) (hmem : o ∈ book) (ht : o.type = "sell") (v : Int) :
    buySide m (updateVolume o.order_id v book) = buySide m book := by
  obtain ⟨l1, l2, rfl, h1, _⟩ := unique_decomp hu hmem
  rw [updateVolume_append_notin h1 rfl]
  have hnb : ¬(o.market_id = m ∧ o.type = "buy") := by
    rintro ⟨-, h⟩
    rw [ht] at h
    exact absurd h (by decide)
  simp [buySide_append, buySide_cons, hnb]

/-! ### Progress and termination of the matching loop -/

theorem reduceOrder_length_le (o : Order) (tv : Int) (book : List Order) :
    (reduceOrder o tv book).length ≤ book.length := by
  unfold reduceOrder
  split
  · rw [updateVolume_length]
  · exact deleteOne_length_le _ _

theorem tradeBook_length_lt {highest_buy lowest_sell : Order} {book : List Order}
    (hhb : highest_buy.order_id ∈ book.map Order.order_id)
    (hls : lowest_sell.order_id ∈ book.map Order.order_id) :
    (tradeBook highest_buy lowest_sell book).length < book.length := by
  unfold tradeBook
  dsimp only
  rcases le_total highest_buy.volume lowest_sell.volume with h | h
  · have hstep : reduceOrder highest_buy (min highest_buy.volume lowest_sell.volume) book =
        deleteOne highest_buy.order_id book := by
      unfold reduceOrder
      rw [min_eq_left h, sub_self, if_neg (lt_irrefl 0)]
    rw [hstep]
    exact lt_of_le_of_lt (reduceOrder_length_le _ _ _) (deleteOne_length_lt hhb)
  · have hmin : min highest_buy.volume lowest_sell.volume = lowest_sell.volume :=
      min_eq_right h
    unfold reduceOrder
    rw [hmin, sub_self, if_neg (lt_irrefl 0)]
    by_cases h2 : 0 < highest_buy.volume - lowest_sell.volume
    · rw [if_pos h2]
      have hls' : lowest_sell.order_id ∈
          (updateVolume highest_buy.order_id
            (highest_buy.volume - lowest_sell.volume) book).map Order.order_id := by
        rw [updateVolume_map_order_id]
        exact hls
      calc (deleteOne lowest_sell.order_id
              (updateVolume highest_buy.order_id
                (highest_buy.volume - lowest_sell.volume) book)).length
          < (updateVolume highest_buy.order_id
              (highest_buy.volume - lowest_sell.volume) book).length :=
            deleteOne_length_lt hls'
        _ = book.length := updateVolume_length _ _ _
    · rw [if_neg h2]
      exact lt_of_le_of_lt (deleteOne_length_le _ _) (deleteOne_length_lt hhb)

theorem matchLoop_succ_no_pair {m : String} {book : List Order} {fuel : Nat}
    (h : best_bid m book = none ∨ best_ask m book = none) :
    matchLoop m (fuel + 1) book = ([], book) := by
  rcases h with h | h
  · cases hask : best_ask m book <;> simp [matchLoop, h, hask]
  · cases hbid : best_bid m book <;> simp [matchLoop, h, hbid]

theorem matchLoop_succ_nocross {m : String} {book : List Order} {fuel : Nat}
    {highest_buy lowest_sell : Order}
    (h1 : best_bid m book = some highest_buy) (h2 : best_ask m book = some lowest_sell)
    (h3 : ¬lowest_sell.price ≤ highest_buy.price) :
    matchLoop m (fuel + 1) book = ([], book) := by
  simp only [matchLoop]
  rw [h1, h2]
  dsimp only
  rw [if_neg h3]

theorem matchLoop_succ_self {m : String} {book : List Order} {fuel : Nat}
    {highest_buy lowest_sell : Order}
    (h1 : best_bid m book = some highest_buy) (h2 : best_ask m book = some lowest_sell)
    (h3 : lowest_sell.price ≤ highest_buy.price)
    (h4 : highest_buy.user_id = lowest_sell.user_id ∧ highest_buy.user_id ≠ "Charlie") :
    matchLoop m (fuel + 1) book = matchLoop m fuel (deleteOne highest_buy.order_id book) := by
  simp only [matchLoop]
  rw [h1, h2]
  dsimp only
  rw [if_pos h3, if_pos h4]

theorem matchLoop_succ_trade {m : String} {book : List Order} {fuel : Nat}
    {highest_buy lowest_sell : Order}
    (h1 : best_bid m book = some highest_buy) (h2 : best_ask m book = some lowest_sell)
    (h3 : lowest_sell.price ≤ highest_buy.price)
    (h4 : ¬(highest_buy.user_id = lowest_sell.user_id ∧ highest_buy.user_id ≠ "Charlie")) :
    matchLoop m (fuel + 1) book =
      (mkTrade m highest_buy lowest_sell ::
          (matchLoop m fuel (tradeBook highest_buy lowest_sell book)).1,
        (matchLoop m fuel (tradeBook highest_buy lowest_sell book)).2) := by
  simp only [matchLoop]
  rw [h1, h2]
  dsimp only
  rw [if_pos h3, if_neg h4]

theorem noCross_of_no_pair {m : String} {book : List Order}
    (h : best_bid m book = none ∨ best_ask m book = none) : noCross m book = true := by
  rcases h with h | h
  · cases hask : best_ask m book <;> simp [noCross, h, hask]
  · cases hbid : best_bid m book <;> simp [noCross, h, hbid]

theorem noCross_of_lt {m : String} {book : List Order} {highest_buy lowest_sell : Order}
    (h1 : best_bid m book = some highest_buy) (h2 : best_ask m book = some lowest_sell)
    (h : highest_buy.price < lowest_sell.price) : noCross m book = true := by
  simp [noCross, h1, h2, h]

theorem noCross_elim {m : String} {book : List Order} {highest_buy lowest_sell : Order}
    (h : noCross m book = true)
    (h1 : best_bid m book = some highest_buy) (h2 : best_ask m book = some lowest_sell) :
    highest_buy.price < lowest_sell.price := by
  unfold noCross at h
  rw [h1, h2] at h
  exact of_decide_eq_true h

theorem matchLoop_noCross (m : String) :
    ∀ fuel book, book.length < fuel → noCross m (matchLoop m fuel book).2 = true := by
  intro fuel
  induction fuel with
  | zero => intro book h; exact absurd h (Nat.not_lt_zero _)
  | succ f ih =>
    intro book hlen
    cases hbid : best_bid m book with
    | none =>
      rw [matchLoop_succ_no_pair (Or.inl hbid)]
      exact noCross_of_no_pair (Or.inl hbid)
    | some highest_buy =>
      cases hask : best_ask m book with
      | none =>
        rw [matchLoop_succ_no_pair (Or.inr hask)]
        exact noCross_of_no_pair (Or.inr hask)
      | some lowest_sell =>
        by_cases hcross : lowest_sell.price ≤ highest_buy.price
        · by_cases hself :
              highest_buy.user_id = lowest_sell.user_id ∧ highest_buy.user_id ≠ "Charlie"
          · rw [matchLoop_succ_self hbid hask hcross hself]
            apply ih
            have hlt : (deleteOne highest_buy.order_id book).length < book.length :=
              deleteOne_length_lt (List.mem_map_of_mem _ (best_bid_mem hbid).1)
            omega
          · rw [matchLoop_succ_trade hbid hask hcross hself]
            dsimp only
            apply ih
            have hlt := tradeBook_length_lt
              (List.mem_map_of_mem Order.order_id (best_bid_mem hbid).1)
              (List.mem_map_of_mem Order.order_id (best_ask_mem hask).1)
            omega
        · rw [matchLoop_succ_nocross hbid hask hcross]
          exact noCross_of_lt hbid hask (lt_of_not_le hcross)

theorem matchLoop_fuel_irrelevant (m : String) :
    ∀ f1 f2 book, book.length < f1 → book.length < f2 →
      matchLoop m f1 book = matchLoop m f2 book := by
  intro f1
  induction f1 with
  | zero => intro f2 book h _; exact absurd h (Nat.not_lt_zero _)
  | succ f ih =>
    intro f2 book h1 h2
    cases f2 with
    | zero => exact absurd h2 (Nat.not_lt_zero _)
    | succ g =>
      cases hbid : best_bid m book with
      | none => rw [matchLoop_succ_no_pair (Or.inl hbid), matchLoop_succ_no_pair (Or.inl hbid)]
      | some highest_buy =>
        cases hask : best_ask m book with
        | none => rw [matchLoop_succ_no_pair (Or.inr hask), matchLoop_succ_no_pair (Or.inr hask)]
        | some lowest_sell =>
          by_cases hcross : lowest_sell.price ≤ highest_buy.price
          · by_cases hself :
                highest_buy.user_id = lowest_sell.user_id ∧ highest_buy.user_id ≠ "Charlie"
            · rw [matchLoop_succ_self hbid hask hcross hself,
                matchLoop_succ_self hbid hask hcross hself]
              have hlt : (deleteOne highest_buy.order_id book).length < book.length :=
                deleteOne_length_lt (List.mem_map_of_mem _ (best_bid_mem hbid).1)
              exact ih g _ (by omega) (by omega)
            · rw [matchLoop_succ_trade hbid hask hcross hself,
                matchLoop_succ_trade hbid hask hcross hself]
              have hlt := tradeBook_length_lt
                (List.mem_map_of_mem Order.order_id (best_bid_mem hbid).1)
                (List.mem_map_of_mem Order.order_id (best_ask_mem hask).1)
              rw [ih g _ (by omega) (by omega)]
          · rw [matchLoop_succ_nocross hbid hask hcross,
              matchLoop_succ_nocross hbid hask hcross]

theorem matchLoop_eq_match_orders {m : String} {book : List Order} {fuel : Nat}
    (h : book.length < fuel) : matchLoop m fuel book = match_orders m book :=
  matchLoop_fuel_irrelevant m fuel (book.length + 1) book h (Nat.lt_succ_self _)

theorem match_orders_noCross (m : String) (book : List Order) :
    noCross m (match_orders m book).2 = true :=
  matchLoop_noCross m (book.length + 1) book (Nat.lt_succ_self _)

theorem matchLoop_of_noCross {m : String} {book : List Order}
    (h : noCross m book = true) (fuel : Nat) : matchLoop m fuel book = ([], book) := by
  cases fuel with
  | zero => rfl
  | succ f =>
    cases hbid : best_bid m book with
    | none => exact matchLoop_succ_no_pair (Or.inl hbid)
    | some highest_buy =>
      cases hask : best_ask m book with
      | none => exact matchLoop_succ_no_pair (Or.inr hask)
      | some lowest_sell =>
        have := noCross_elim h hbid hask
        exact matchLoop_succ_nocross hbid hask (not_le_of_lt this)

/-! ### Volume accounting -/

theorem reduceOrder_facts (m : String) {book : List Order} {o : Order} {tv : Int}
    (hu : uniqueIds book) (hpos : allVolPos book) (hmem : o ∈ book) (htv : tv ≤ o.volume) :
    uniqueIds (reduceOrder o tv book) ∧ allVolPos (reduceOrder o tv book) ∧
    totalVol (reduceOrder o tv book) = totalVol book - tv ∧
    (∀ x ∈ book, x.order_id ≠ o.order_id → x ∈ reduceOrder o tv book) ∧
    (o.market_id = m → o.type = "buy" →
      totalVol (buySide m (reduceOrder o tv book)) = totalVol (buySide m book) - tv ∧
      sellSide m (reduceOrder o tv book) = sellSide m book) ∧
    (o.market_id = m → o.type = "sell" →
      totalVol (sellSide m (reduceOrder o tv book)) = totalVol (sellSide m book) - tv ∧
      buySide m (reduceOrder o tv book) = buySide m book) := by
  by_cases h : 0 < o.volume - tv
  · simp only [reduceOrder, if_pos h]
    refine ⟨uniqueIds_updateVolume hu, allVolPos_updateVolume hpos h, ?_,
      fun x hx hne => mem_updateVolume_of_ne hne hx, ?_, ?_⟩
    · rw [totalVol_updateVolume_mem hu hmem]
      ring
    · intro hmk ht
      refine ⟨?_, sellSide_updateVolume_buy hu hmem ht _⟩
      rw [buySide_totalVol_updateVolume_buy hu hmem hmk ht]
      ring
    · intro hmk ht
      refine ⟨?_, buySide_updateVolume_sell hu hmem ht _⟩
      rw [sellSide_totalVol_updateVolume_sell hu hmem hmk ht]
      ring
  · have heq : o.volume = tv := by omega
    simp only [reduceOrder, if_neg h]
    refine ⟨uniqueIds_deleteOne hu, allVolPos_deleteOne hpos, ?_,
      fun x hx hne => mem_deleteOne_of_ne hne hx, ?_, ?_⟩
    · rw [totalVol_deleteOne_mem hu hmem, heq]
    · intro hmk ht
      refine ⟨?_, sellSide_deleteOne_buy hu hmem ht⟩
      rw [buySide_totalVol_deleteOne_buy hu hmem hmk ht, heq]
    · intro hmk ht
      refine ⟨?_, buySide_deleteOne_sell hu hmem ht⟩
      rw [sellSide_totalVol_deleteOne_sell hu hmem hmk ht, heq]

theorem uniqueIds_reduceOrder {l : List Order} {o : Order} {tv : Int}
    (hu : uniqueIds l) : uniqueIds (reduceOrder o tv l) := by
  unfold reduceOrder
  split
  · exact uniqueIds_updateVolume hu
  · exact uniqueIds_deleteOne hu

theorem mem_map_deleteOne_of_ne {oid oid' : Nat} {l : List Order}
    (hne : oid ≠ oid') (h : oid ∈ l.map Order.order_id) :
    oid ∈ (deleteOne oid' l).map Order.order_id := by
  induction l with
  | nil => simp at h
  | cons o os ih =>
    simp only [List.map_cons, List.mem_cons] at h
    simp only [deleteOne]
    by_cases ho : o.order_id = oid'
    · rw [if_pos ho]
      rcases h with h | h
      · exact absurd (h.trans ho) hne
      · exact h
    · rw [if_neg ho]
      simp only [List.map_cons, List.mem_cons]
      rcases h with h | h
      · exact Or.inl h
      · exact Or.inr (ih h)

theorem not_mem_map_deleteOne_self {l : List Order} {o : Order}
    (hu : uniqueIds l) (hmem : o ∈ l) :
    o.order_id ∉ (deleteOne o.order_id l).map Order.order_id := by
  obtain ⟨l1, l2, rfl, h1, h2⟩ := unique_decomp hu hmem
  rw [deleteOne_append_notin h1 rfl]
  simp only [List.map_append, List.mem_append]
  rintro (h | h) <;> obtain ⟨x, hx, hxe⟩ := List.mem_map.mp h
  · exact h1 x hx hxe
  · exact h2 x hx hxe

theorem not_mem_map_deleteOne_of_not_mem {oid oid' : Nat} {l : List Order}
    (h : oid ∉ l.map Order.order_id) : oid ∉ (deleteOne oid' l).map Order.order_id :=
  fun hc => h (((deleteOne_sublist oid' l).map Order.order_id).subset hc)

theorem mem_reduceOrder_of_ne {l : List Order} {o x : Order} {tv : Int}
    (hne : x.order_id ≠ o.order_id) (hx : x ∈ l) : x ∈ reduceOrder o tv l := by
  unfold reduceOrder
  split
  · exact mem_updateVolume_of_ne hne hx
  · exact mem_deleteOne_of_ne hne hx

theorem mem_map_reduceOrder_of_ne {l : List Order} {o : Order} {oid : Nat} {tv : Int}
    (hne : oid ≠ o.order_id) (h : oid ∈ l.map Order.order_id) :
    oid ∈ (reduceOrder o tv l).map Order.order_id := by
  unfold reduceOrder
  split
  · rw [updateVolume_map_order_id]
    exact h
  · exact mem_map_deleteOne_of_ne hne h

theorem not_mem_map_reduceOrder {l : List Order} {o : Order} {oid : Nat} {tv : Int}
    (h : oid ∉ l.map Order.order_id) : oid ∉ (reduceOrder o tv l).map Order.order_id := by
  unfold reduceOrder
  split
  · rw [updateVolume_map_order_id]
    exact h
  · exact not_mem_map_deleteOne_of_not_mem h

theorem reduceOrder_self_mem {l : List Order} {o : Order} {tv : Int}
    (hu : uniqueIds l) (hmem : o ∈ l) (hpos : 0 < o.volume - tv) :
    { o with volume := o.volume - tv } ∈ reduceOrder o tv l := by
  obtain ⟨l1, l2, rfl, h1, -⟩ := unique_decomp hu hmem
  unfold reduceOrder
  rw [if_pos hpos, updateVolume_append_notin h1 rfl]
  exact List.mem_append.mpr (Or.inr (List.mem_cons_self _ _))

theorem reduceOrder_self_removed {l : List Order} {o : Order} {tv : Int}
    (hu : uniqueIds l) (hmem : o ∈ l) (hz : o.volume - tv = 0) :
    o.order_id ∉ (reduceOrder o tv l).map Order.order_id := by
  unfold reduceOrder
  rw [if_neg (by omega)]
  exact not_mem_map_deleteOne_self hu hmem

theorem reduceOrder_self_kept {l : List Order} {o : Order} {tv : Int}
    (hmem : o ∈ l) (hpos : 0 < o.volume - tv) :
    o.order_id ∈ (reduceOrder o tv l).map Order.order_id := by
  unfold reduceOrder
  rw [if_pos hpos, updateVolume_map_order_id]
  exact List.mem_map_of_mem _ hmem

theorem tradeBook_entries {book : List Order} {highest_buy lowest_sell : Order}
    (hu : uniqueIds book) (hbm : highest_buy ∈ book) (lsm : lowest_sell ∈ book)
    (hneid : lowest_sell.order_id ≠ highest_buy.order_id) :
    ({ highest_buy with
        volume := highest_buy.volume - min highest_buy.volume lowest_sell.volume } ∈
          tradeBook highest_buy lowest_sell book ↔
      0 < highest_buy.volume - min highest_buy.volume lowest_sell.volume) ∧
    (highest_buy.order_id ∉ (tradeBook highest_buy lowest_sell book).map Order.order_id ↔
      highest_buy.volume - min highest_buy.volume lowest_sell.volume = 0) ∧
    ({ lowest_sell with
        volume := lowest_sell.volume - min highest_buy.volume lowest_sell.volume } ∈
          tradeBook highest_buy lowest_sell book ↔
      0 < lowest_sell.volume - min highest_buy.volume lowest_sell.volume) ∧
    (lowest_sell.order_id ∉ (tradeBook highest_buy lowest_sell book).map Order.order_id ↔
      lowest_sell.volume - min highest_buy.volume lowest_sell.volume = 0) := by
  have hnb : 0 ≤ highest_buy.volume - min highest_buy.volume lowest_sell.volume := by
    have := min_le_left highest_buy.volume lowest_sell.volume
    omega
  have hns : 0 ≤ lowest_sell.volume - min highest_buy.volume lowest_sell.volume := by
    have := min_le_right highest_buy.volume lowest_sell.volume
    omega
  have hu1 : uniqueIds (reduceOrder highest_buy (min highest_buy.volume lowest_sell.volume) book) :=
    uniqueIds_reduceOrder hu
  have lsm1 : lowest_sell ∈
      reduceOrder highest_buy (min highest_buy.volume lowest_sell.volume) book :=
    mem_reduceOrder_of_ne hneid lsm
  have hbids : highest_buy.order_id ∈
        (tradeBook highest_buy lowest_sell book).map Order.order_id ↔
      0 < highest_buy.volume - min highest_buy.volume lowest_sell.volume := by
    unfold tradeBook
    dsimp only
    constructor
    · intro h
      by_contra hc
      have hz : highest_buy.volume - min highest_buy.volume lowest_sell.volume = 0 := by omega
      exact absurd h (not_mem_map_reduceOrder (reduceOrder_self_removed hu hbm hz))
    · intro h
      exact mem_map_reduceOrder_of_ne (Ne.symm hneid) (reduceOrder_self_kept hbm h)
  have hlsids : lowest_sell.order_id ∈
        (tradeBook highest_buy lowest_sell book).map Order.order_id ↔
      0 < lowest_sell.volume - min highest_buy.volume lowest_sell.volume := by
    unfold tradeBook
    dsimp only
    constructor
    · intro h
      by_contra hc
      have hz : lowest_sell.volume - min highest_buy.volume lowest_sell.volume = 0 := by omega
      exact absurd h (reduceOrder_self_removed hu1 lsm1 hz)
    · intro h
      exact reduceOrder_self_kept lsm1 h
  refine ⟨?_, ?_, ?_, ?_⟩
  · constructor
    · intro h
      have := List.mem_map_of_mem Order.order_id h
      exact hbids.mp this
    · intro h
      show _ ∈ reduceOrder lowest_sell (min highest_buy.volume lowest_sell.volume)
        (reduceOrder highest_buy (min highest_buy.volume lowest_sell.volume) book)
      exact mem_reduceOrder_of_ne (Ne.symm hneid) (reduceOrder_self_mem hu hbm h)
  · constructor
    · intro h
      by_contra hc
      exact h (hbids.mpr (by omega))
    · intro h hc
      exact absurd (hbids.mp hc) (by omega)
  · constructor
    · intro h
      have := List.mem_map_of_mem Order.order_id h
      exact hlsids.mp this
    · intro h
      show _ ∈ reduceOrder lowest_sell (min highest_buy.volume lowest_sell.volume)
        (reduceOrder highest_buy (min highest_buy.volume lowest_sell.volume) book)
      exact reduceOrder_self_mem hu1 lsm1 h
  · constructor
    · intro h
      by_contra hc
      exact h (hlsids.mpr (by omega))
    · intro h hc
      exact absurd (hlsids.mp hc) (by omega)

theorem tradeBook_facts (m : String) {book : List Order} {highest_buy lowest_sell : Order}
    (hu : uniqueIds book) (hpos : allVolPos book)
    (hbm : highest_buy ∈ book) (hbmk : highest_buy.market_id = m)
    (hbt : highest_buy.type = "buy")
    (lsm : lowest_sell ∈ book) (lsmk : lowest_sell.market_id = m)
    (lst : lowest_sell.type = "sell") :
    uniqueIds (tradeBook highest_buy lowest_sell book) ∧
    allVolPos (tradeBook highest_buy lowest_sell book) ∧
    totalVol (buySide m (tradeBook highest_buy lowest_sell book)) =
      totalVol (buySide m book) - min highest_buy.volume lowest_sell.volume ∧
    totalVol (sellSide m (tradeBook highest_buy lowest_sell book)) =
      totalVol (sellSide m book) - min highest_buy.volume lowest_sell.volume ∧
    totalVol (tradeBook highest_buy lowest_sell book) =
      totalVol book - 2 * min highest_buy.volume lowest_sell.volume := by
  have hne : highest_buy ≠ lowest_sell := by
    intro hEq
    rw [hEq, lst] at hbt
    exact absurd hbt (by decide)
  have hneid : lowest_sell.order_id ≠ highest_buy.order_id := by
    intro hEq
    exact hne (ids_injective hu lsm hbm hEq).symm
  have htv1 : min highest_buy.volume lowest_sell.volume ≤ highest_buy.volume := min_le_left _ _
  have htv2 : min highest_buy.volume lowest_sell.volume ≤ lowest_sell.volume := min_le_right _ _
  obtain ⟨hu1, hpos1, htot1, hmem1, hbuy1, -⟩ := reduceOrder_facts m hu hpos hbm htv1
  obtain ⟨hbuyT, hsellE⟩ := hbuy1 hbmk hbt
  have lsm1 : lowest_sell ∈ reduceOrder highest_buy (min highest_buy.volume lowest_sell.volume) book :=
    hmem1 lowest_sell lsm hneid
  obtain ⟨hu2, hpos2, htot2, -, -, hsell2⟩ := reduceOrder_facts m hu1 hpos1 lsm1 htv2
  obtain ⟨hsellT, hbuyE⟩ := hsell2 lsmk lst
  unfold tradeBook
  dsimp only
  refine ⟨hu2, hpos2, ?_, ?_, ?_⟩
  · rw [hbuyE, hbuyT]
  · rw [hsellT, hsellE]
  · rw [htot2, htot1]
    ring

theorem matchLoopG_succ_no_pair {m : String} {book : List Order} {fuel : Nat}
    (h : best_bid m book = none ∨ best_ask m book = none) :
    matchLoopG m (fuel + 1) book = ([], book, 0) := by
  rcases h with h | h
  · cases hask : best_ask m book <;> simp [matchLoopG, h, hask]
  · cases hbid : best_bid m book <;> simp [matchLoopG, h, hbid]

theorem matchLoopG_succ_nocross {m : String} {book : List Order} {fuel : Nat}
    {highest_buy lowest_sell : Order}
    (h1 : best_bid m book = some highest_buy) (h2 : best_ask m book = some lowest_sell)
    (h3 : ¬lowest_sell.price ≤ highest_buy.price) :
    matchLoopG m (fuel + 1) book = ([], book, 0) := by
  simp only [matchLoopG]
  rw [h1, h2]
  dsimp only
  rw [if_neg h3]

theorem matchLoopG_succ_self {m : String} {book : List Order} {fuel : Nat}
    {highest_buy lowest_sell : Order}
    (h1 : best_bid m book = some highest_buy) (h2 : best_ask m book = some lowest_sell)
    (h3 : lowest_sell.price ≤ highest_buy.price)
    (h4 : highest_buy.user_id = lowest_sell.user_id ∧ highest_buy.user_id ≠ "Charlie") :
    matchLoopG m (fuel + 1) book =
      ((matchLoopG m fuel (deleteOne highest_buy.order_id book)).1,
        (matchLoopG m fuel (deleteOne highest_buy.order_id book)).2.1,
        highest_buy.volume + (matchLoopG m fuel (deleteOne highest_buy.order_id book)).2.2) := by
  simp only [matchLoopG]
  rw [h1, h2]
  dsimp only
  rw [if_pos h3, if_pos h4]

theorem matchLoopG_succ_trade {m : String} {book : List Order} {fuel : Nat}
    {highest_buy lowest_sell : Order}
    (h1 : best_bid m book = some highest_buy) (h2 : best_ask m book = some lowest_sell)
    (h3 : lowest_sell.price ≤ highest_buy.price)
    (h4 : ¬(highest_buy.user_id = lowest_sell.user_id ∧ highest_buy.user_id ≠ "Charlie")) :
    matchLoopG m (fuel + 1) book =
      (mkTrade m highest_buy lowest_sell ::
          (matchLoopG m fuel (tradeBook highest_buy lowest_sell book)).1,
        (matchLoopG m fuel (tradeBook highest_buy lowest_sell book)).2.1,
        (matchLoopG m fuel (tradeBook highest_buy lowest_sell book)).2.2) := by
  simp only [matchLoopG]
  rw [h1, h2]
  dsimp only
  rw [if_pos h3, if_neg h4]

theorem matchLoopG_eq (m : String) :
    ∀ fuel book, matchLoop m fuel book =
      ((matchLoopG m fuel book).1, (matchLoopG m fuel book).2.1) := by
  intro fuel
  induction fuel with
  | zero => intro book; rfl
  | succ f ih =>
    intro book
    cases hbid : best_bid m book with
    | none => rw [matchLoop_succ_no_pair (Or.inl hbid), matchLoopG_succ_no_pair (Or.inl hbid)]
    | some highest_buy =>
      cases hask : best_ask m book with
      | none => rw [matchLoop_succ_no_pair (Or.inr hask), matchLoopG_succ_no_pair (Or.inr hask)]
      | some lowest_sell =>
        by_cases hcross : lowest_sell.price ≤ highest_buy.price
        · by_cases hself :
              highest_buy.user_id = lowest_sell.user_id ∧ highest_buy.user_id ≠ "Charlie"
          · rw [matchLoop_succ_self hbid hask hcross hself,
              matchLoopG_succ_self hbid hask hcross hself]
            rw [ih]
          · rw [matchLoop_succ_trade hbid hask hcross hself,
              matchLoopG_succ_trade hbid hask hcross hself]
            rw [ih]
        · rw [matchLoop_succ_nocross hbid hask hcross, matchLoopG_succ_nocross hbid hask hcross]

theorem sumTradeVol_cons (t : Trade) (ts : List Trade) :
    sumTradeVol (t :: ts) = t.volume + sumTradeVol ts := by
  simp [sumTradeVol]

theorem matchLoopG_conservation (m : String) :
    ∀ fuel book, uniqueIds book → allVolPos book →
      uniqueIds (matchLoopG m fuel book).2.1 ∧
      allVolPos (matchLoopG m fuel book).2.1 ∧
      0 ≤ (matchLoopG m fuel book).2.2 ∧
      totalVol (buySide m book) =
        totalVol (buySide m (matchLoopG m fuel book).2.1) +
          sumTradeVol (matchLoopG m fuel book).1 + (matchLoopG m fuel book).2.2 ∧
      totalVol (sellSide m book) =
        totalVol (sellSide m (matchLoopG m fuel book).2.1) +
          sumTradeVol (matchLoopG m fuel book).1 := by
  intro fuel
  induction fuel with
  | zero =>
    intro book hu hpos
    refine ⟨hu, hpos, le_refl 0, ?_, ?_⟩ <;> simp [matchLoopG, sumTradeVol]
  | succ f ih =>
    intro book hu hpos
    cases hbid : best_bid m book with
    | none =>
      rw [matchLoopG_succ_no_pair (Or.inl hbid)]
      refine ⟨hu, hpos, le_refl 0, ?_, ?_⟩ <;> simp [sumTradeVol]
    | some highest_buy =>
      cases hask : best_ask m book with
      | none =>
        rw [matchLoopG_succ_no_pair (Or.inr hask)]
        refine ⟨hu, hpos, le_refl 0, ?_, ?_⟩ <;> simp [sumTradeVol]
      | some lowest_sell =>
        obtain ⟨hbm, hbmk, hbt⟩ := best_bid_mem hbid
        obtain ⟨lsm, lsmk, lst⟩ := best_ask_mem hask
        by_cases hcross : lowest_sell.price ≤ highest_buy.price
        · by_cases hself :
              highest_buy.user_id = lowest_sell.user_id ∧ highest_buy.user_id ≠ "Charlie"
          · rw [matchLoopG_succ_self hbid hask hcross hself]
            dsimp only
            have hu' : uniqueIds (deleteOne highest_buy.order_id book) :=
              uniqueIds_deleteOne hu
            have hpos' : allVolPos (deleteOne highest_buy.order_id book) :=
              allVolPos_deleteOne hpos
            obtain ⟨ihu, ihpos, ihg, ihbuy, ihsell⟩ := ih _ hu' hpos'
            have hbv : 0 < highest_buy.volume := hpos _ hbm
            have hbuyT := buySide_totalVol_deleteOne_buy hu hbm hbmk hbt
            have hsellE : sellSide m (deleteOne highest_buy.order_id book) =
                sellSide m book :=
              sellSide_deleteOne_buy hu hbm hbt
            refine ⟨ihu, ihpos, by linarith, ?_, ?_⟩
            · linarith [ihbuy, hbuyT]
            · rw [← hsellE]
              exact ihsell
          · rw [matchLoopG_succ_trade hbid hask hcross hself]
            dsimp only
            obtain ⟨hu2, hpos2, hbuyT, hsellT, -⟩ :=
              tradeBook_facts m hu hpos hbm hbmk hbt lsm lsmk lst
            obtain ⟨ihu, ihpos, ihg, ihbuy, ihsell⟩ := ih _ hu2 hpos2
            refine ⟨ihu, ihpos, ihg, ?_, ?_⟩
            · rw [sumTradeVol_cons]
              have hmk : (mkTrade m highest_buy lowest_sell).volume =
                  min highest_buy.volume lowest_sell.volume := rfl
              rw [hmk]
              linarith [ihbuy, hbuyT]
            · rw [sumTradeVol_cons]
              have hmk : (mkTrade m highest_buy lowest_sell).volume =
                  min highest_buy.volume lowest_sell.volume := rfl
              rw [hmk]
              linarith [ihsell, hsellT]
        · rw [matchLoopG_succ_nocross hbid hask hcross]
          refine ⟨hu, hpos, le_refl 0, ?_, ?_⟩ <;> simp [sumTradeVol]

/-! ### Trade provenance, identifier attachment and the inline block -/

theorem matchLoopT_succ_no_pair {m : String} {book : List Order} {fuel : Nat}
    (h : best_bid m book = none ∨ best_ask m book = none) :
    matchLoopT m (fuel + 1) book = ([], book) := by
  rcases h with h | h
  · cases hask : best_ask m book <;> simp [matchLoopT, h, hask]
  · cases hbid : best_bid m book <;> simp [matchLoopT, h, hbid]

theorem matchLoopT_succ_nocross {m : String} {book : List Order} {fuel : Nat}
    {highest_buy lowest_sell : Order}
    (h1 : best_bid m book = some highest_buy) (h2 : best_ask m book = some lowest_sell)
    (h3 : ¬lowest_sell.price ≤ highest_buy.price) :
    matchLoopT m (fuel + 1) book = ([], book) := by
  simp only [matchLoopT]
  rw [h1, h2]
  dsimp only
  rw [if_neg h3]

theorem matchLoopT_succ_self {m : String} {book : List Order} {fuel : Nat}
    {highest_buy lowest_sell : Order}
    (h1 : best_bid m book = some highest_buy) (h2 : best_ask m book = some lowest_sell)
    (h3 : lowest_sell.price ≤ highest_buy.price)
    (h4 : highest_buy.user_id = lowest_sell.user_id ∧ highest_buy.user_id ≠ "Charlie") :
    matchLoopT m (fuel + 1) book = matchLoopT m fuel (deleteOne highest_buy.order_id book) := by
  simp only [matchLoopT]
  rw [h1, h2]
  dsimp only
  rw [if_pos h3, if_pos h4]

theorem matchLoopT_succ_trade {m : String} {book : List Order} {fuel : Nat}
    {highest_buy lowest_sell : Order}
    (h1 : best_bid m book = some highest_buy) (h2 : best_ask m book = some lowest_sell)
    (h3 : lowest_sell.price ≤ highest_buy.price)
    (h4 : ¬(highest_buy.user_id = lowest_sell.user_id ∧ highest_buy.user_id ≠ "Charlie")) :
    matchLoopT m (fuel + 1) book =
      ((book, mkTrade m highest_buy lowest_sell) ::
          (matchLoopT m fuel (tradeBook highest_buy lowest_sell book)).1,
        (matchLoopT m fuel (tradeBook highest_buy lowest_sell book)).2) := by
  simp only [matchLoopT]
  rw [h1, h2]
  dsimp only
  rw [if_pos h3, if_neg h4]

theorem matchLoopT_eq (m : String) :
    ∀ fuel book, matchLoop m fuel book =
      ((matchLoopT m fuel book).1.map Prod.snd, (matchLoopT m fuel book).2) := by
  intro fuel
  induction fuel with
  | zero => intro book; rfl
  | succ f ih =>
    intro book
    cases hbid : best_bid m book with
    | none => rw [matchLoop_succ_no_pair (Or.inl hbid), matchLoopT_succ_no_pair (Or.inl hbid)]; rfl
    | some highest_buy =>
      cases hask : best_ask m book with
      | none => rw [matchLoop_succ_no_pair (Or.inr hask), matchLoopT_succ_no_pair (Or.inr hask)]; rfl
      | some lowest_sell =>
        by_cases hcross : lowest_sell.price ≤ highest_buy.price
        · by_cases hself :
              highest_buy.user_id = lowest_sell.user_id ∧ highest_buy.user_id ≠ "Charlie"
          · rw [matchLoop_succ_self hbid hask hcross hself,
              matchLoopT_succ_self hbid hask hcross hself]
            exact ih _
          · rw [matchLoop_succ_trade hbid hask hcross hself,
              matchLoopT_succ_trade hbid hask hcross hself]
            rw [ih]
            simp
        · rw [matchLoop_succ_nocross hbid hask hcross, matchLoopT_succ_nocross hbid hask hcross]
          rfl

theorem matchLoopT_src (m : String) :
    ∀ fuel book p, p ∈ (matchLoopT m fuel book).1 →
      ∃ highest_buy lowest_sell,
        best_bid m p.1 = some highest_buy ∧ best_ask m p.1 = some lowest_sell ∧
        lowest_sell.price ≤ highest_buy.price ∧
        ¬(highest_buy.user_id = lowest_sell.user_id ∧ highest_buy.user_id ≠ "Charlie") ∧
        p.2 = mkTrade m highest_buy lowest_sell := by
  intro fuel
  induction fuel with
  | zero => intro book p hp; simp [matchLoopT] at hp
  | succ f ih =>
    intro book p hp
    cases hbid : best_bid m book with
    | none =>
      rw [matchLoopT_succ_no_pair (Or.inl hbid)] at hp
      simp at hp
    | some highest_buy =>
      cases hask : best_ask m book with
      | none =>
        rw [matchLoopT_succ_no_pair (Or.inr hask)] at hp
        simp at hp
      | some lowest_sell =>
        by_cases hcross : lowest_sell.price ≤ highest_buy.price
        · by_cases hself :
              highest_buy.user_id = lowest_sell.user_id ∧ highest_buy.user_id ≠ "Charlie"
          · rw [matchLoopT_succ_self hbid hask hcross hself] at hp
            exact ih _ _ hp
          · rw [matchLoopT_succ_trade hbid hask hcross hself] at hp
            dsimp only at hp
            rcases List.mem_cons.mp hp with rfl | hp'
            · exact ⟨highest_buy, lowest_sell, hbid, hask, hcross, hself, rfl⟩
            · exact ih _ _ hp'
        · rw [matchLoopT_succ_nocross hbid hask hcross] at hp
          simp at hp

theorem matchLoopT_inv (m : String) :
    ∀ fuel book, uniqueIds book → allVolPos book →
      ∀ p ∈ (matchLoopT m fuel book).1, uniqueIds p.1 ∧ allVolPos p.1 := by
  intro fuel
  induction fuel with
  | zero => intro book _ _ p hp; simp [matchLoopT] at hp
  | succ f ih =>
    intro book hu hpos p hp
    cases hbid : best_bid m book with
    | none =>
      rw [matchLoopT_succ_no_pair (Or.inl hbid)] at hp
      simp at hp
    | some highest_buy =>
      cases hask : best_ask m book with
      | none =>
        rw [matchLoopT_succ_no_pair (Or.inr hask)] at hp
        simp at hp
      | some lowest_sell =>
        by_cases hcross : lowest_sell.price ≤ highest_buy.price
        · by_cases hself :
              highest_buy.user_id = lowest_sell.user_id ∧ highest_buy.user_id ≠ "Charlie"
          · rw [matchLoopT_succ_self hbid hask hcross hself] at hp
            exact ih _ (uniqueIds_deleteOne hu) (allVolPos_deleteOne hpos) p hp
          · rw [matchLoopT_succ_trade hbid hask hcross hself] at hp
            dsimp only at hp
            rcases List.mem_cons.mp hp with rfl | hp'
            · exact ⟨hu, hpos⟩
            · obtain ⟨hbm, hbmk, hbt⟩ := best_bid_mem hbid
              obtain ⟨lsm, lsmk, lst⟩ := best_ask_mem hask
              obtain ⟨hu2, hpos2, -, -, -⟩ :=
                tradeBook_facts m hu hpos hbm hbmk hbt lsm lsmk lst
              exact ih _ hu2 hpos2 p hp'
        · rw [matchLoopT_succ_nocross hbid hask hcross] at hp
          simp at hp

theorem attachIds_map_snd (gen : Nat → String) :
    ∀ (k : Nat) (ts : List Trade), (attachIds gen k ts).map Prod.snd = ts := by
  intro k ts
  induction ts generalizing k with
  | nil => simp [attachIds]
  | cons t ts' ih => simp [attachIds, ih]

theorem inline_block_no_op {m : String} {s : ExchangeState}
    (h : noCross m s.orders = true) : inline_block m s = s := by
  unfold inline_block
  cases hpb : pickBest priceOnlyBuyBetter (buySide m s.orders) with
  | none =>
    cases hpa : pickBest priceOnlySellBetter (sellSide m s.orders) <;> rfl
  | some pb =>
    cases hpa : pickBest priceOnlySellBetter (sellSide m s.orders) with
    | none => rfl
    | some pa =>
      dsimp only
      have hbq : buySide m s.orders ≠ [] := by
        intro hE
        rw [hE] at hpb
        simp [pickBest] at hpb
      have haq : sellSide m s.orders ≠ [] := by
        intro hE
        rw [hE] at hpa
        simp [pickBest] at hpa
      cases hbid : best_bid m s.orders with
      | none => exact absurd (pickBest_eq_none.mp hbid) hbq
      | some b =>
        cases hask : best_ask m s.orders with
        | none => exact absurd (pickBest_eq_none.mp hask) haq
        | some a =>
          have hlt : b.price < a.price := noCross_elim h hbid hask
          have h1 : pb.price ≤ b.price := best_bid_price_max hbid pb (pickBest_mem hpb)
          have h2 : a.price ≤ pa.price := best_ask_price_min hask pa (pickBest_mem hpa)
          rw [if_neg (by omega : ¬pa.price ≤ pb.price)]

/-! ### Claim theorems -/

/-- Claim C1: for every market and every book state, after `match_orders`
returns either the buy side or the sell side of that market's book is
empty, or the best remaining bid price is strictly less than the best
remaining ask price — the loop never returns while a live cross exists. -/
theorem c1_no_cross_invariant (m : String) (book : List Order) :
    buySide m (match_orders m book).2 = [] ∨ sellSide m (match_orders m book).2 = [] ∨
    ∃ highest_buy lowest_sell,
      best_bid m (match_orders m book).2 = some highest_buy ∧
      best_ask m (match_orders m book).2 = some lowest_sell ∧
      highest_buy.price < lowest_sell.price := by
  have h := match_orders_noCross m book
  cases hbid : best_bid m (match_orders m book).2 with
  | none => exact Or.inl (pickBest_eq_none.mp hbid)
  | some highest_buy =>
    cases hask : best_ask m (match_orders m book).2 with
    | none => exact Or.inr (Or.inl (pickBest_eq_none.mp hask))
    | some lowest_sell =>
      exact Or.inr (Or.inr ⟨highest_buy, lowest_sell, rfl, rfl, noCross_elim h hbid hask⟩)

/-- Claim C2: the trades of a `match_orders` run are, in order, exactly
the trades of the recorded trace (`match_orders_trace`, the same loop
additionally recording the book state each trade was matched from), and
every recorded trade is built from the crossing best-bid/best-ask pair of
its recorded book state: volume `min(best_bid.volume, best_ask.volume)`,
price equal to the resting sell order's price, and both order ids and
user identities taken from that pair. -/
theorem c2_trade_price_volume (m : String) (book : List Order) :
    ((match_orders m book).1 = (match_orders_trace m book).1.map Prod.snd ∧
      (match_orders m book).2 = (match_orders_trace m book).2) ∧
    ∀ p ∈ (match_orders_trace m book).1,
      ∃ highest_buy lowest_sell,
        best_bid m p.1 = some highest_buy ∧ best_ask m p.1 = some lowest_sell ∧
        lowest_sell.price ≤ highest_buy.price ∧
        ¬(highest_buy.user_id = lowest_sell.user_id ∧ highest_buy.user_id ≠ "Charlie") ∧
        p.2.volume = min highest_buy.volume lowest_sell.volume ∧
        p.2.price = lowest_sell.price ∧
        p.2.buy_order_id = highest_buy.order_id ∧
        p.2.sell_order_id = lowest_sell.order_id ∧
        p.2.buy_id = highest_buy.user_id ∧ p.2.sell_id = lowest_sell.user_id := by
  constructor
  · have h := matchLoopT_eq m (book.length + 1) book
    exact ⟨congrArg Prod.fst h, congrArg Prod.snd h⟩
  · intro p hp
    obtain ⟨highest_buy, lowest_sell, h1, h2, h3, h4, hpe⟩ :=
      matchLoopT_src m (book.length + 1) book p hp
    rw [hpe]
    exact ⟨highest_buy, lowest_sell, h1, h2, h3, h4, rfl, rfl, rfl, rfl, rfl, rfl⟩

/-- Witness for C2 on the partial-fill scenario book: its single trade is
recorded against the initial book, whose best pair produces it. -/
theorem c2_trade_price_volume_witness :
    ∃ highest_buy lowest_sell,
      best_bid "m1" aliceBook = some highest_buy ∧
      best_ask "m1" aliceBook = some lowest_sell ∧
      lowest_sell.price ≤ highest_buy.price ∧
      ¬(highest_buy.user_id = lowest_sell.user_id ∧ highest_buy.user_id ≠ "Charlie") ∧
      (⟨"m1", 1, 2, "Alice", "Bob", 55, 3⟩ : Trade).volume =
        min highest_buy.volume lowest_sell.volume ∧
      (⟨"m1", 1, 2, "Alice", "Bob", 55, 3⟩ : Trade).price = lowest_sell.price ∧
      (⟨"m1", 1, 2, "Alice", "Bob", 55, 3⟩ : Trade).buy_order_id = highest_buy.order_id ∧
      (⟨"m1", 1, 2, "Alice", "Bob", 55, 3⟩ : Trade).sell_order_id = lowest_sell.order_id ∧
      (⟨"m1", 1, 2, "Alice", "Bob", 55, 3⟩ : Trade).buy_id = highest_buy.user_id ∧
      (⟨"m1", 1, 2, "Alice", "Bob", 55, 3⟩ : Trade).sell_id = lowest_sell.user_id :=
  (c2_trade_price_volume "m1" aliceBook).2
    (aliceBook, ⟨"m1", 1, 2, "Alice", "Bob", 55, 3⟩) (by decide)

/-- Claim C3: on a disallowed self-trade cross (same user, not "Charlie")
the loop emits no trade for the pairing, deletes the resting buy order and
continues with the remaining book; in particular the Dana buy-then-sell
scenario submitted through the handler yields zero trades, the buy order
removed and the sell order resident with volume 2. -/
theorem c3_self_trade_resolution :
    (∀ (m : String) (fuel : Nat) (book : List Order) (highest_buy lowest_sell : Order),
      best_bid m book = some highest_buy → best_ask m book = some lowest_sell →
      lowest_sell.price ≤ highest_buy.price →
      highest_buy.user_id = lowest_sell.user_id → highest_buy.user_id ≠ "Charlie" →
      matchLoop m (fuel + 1) book = matchLoop m fuel (deleteOne highest_buy.order_id book)) ∧
    submit_order true "Dana" "m1" "sell" 70 2 2 1
        (submit_order true "Dana" "m1" "buy" 70 2 1 0 ⟨[], []⟩) =
      ⟨[danaSell], []⟩ := by
  constructor
  · intro m fuel book highest_buy lowest_sell h1 h2 h3 h4 h5
    exact matchLoop_succ_self h1 h2 h3 ⟨h4, h5⟩
  · decide

/-- Witness for C3's general rule on the Dana book. -/
theorem c3_self_trade_resolution_witness :
    matchLoop "m1" 1 danaBook = matchLoop "m1" 0 (deleteOne danaBuy.order_id danaBook) :=
  c3_self_trade_resolution.1 "m1" 0 danaBook danaBuy danaSell (by decide) (by decide)
    (by decide) (by decide) (by decide)

/-- Claim C4 counterexample: price 0 with volume 1 from an authenticated
user lies within the claimed acceptance region (0 ≤ price ≤ 100,
1 ≤ volume ≤ 10), yet the handler's `price <= 0` check (`src/app.py:358`)
rejects it and mutates nothing, so the claimed acceptance condition is
false at this input. -/
theorem c4_boundary_counterexample :
    submission_accepted true 0 1 = false ∧
    submit_order true "Alice" "m1" "buy" 0 1 1 0 ⟨[], []⟩ = ⟨[], []⟩ := by
  decide

/-- Claim C4 (amended): a submission is accepted if and only if the
submitter is authenticated, 1 ≤ price ≤ 100 and 1 ≤ volume ≤ 10 (price 0
passes the widget bound but is rejected by the handler); a submission
failing validation leaves the state unchanged.  In particular price 101,
price -1, volume 0 and volume 11 are rejected. -/
theorem c4_boundary_amended (logged_in : Bool)
    (username selected_market order_type : String) (price volume : Int)
    (oid ts : Nat) (s : ExchangeState) :
    (submission_accepted logged_in price volume = true ↔
      (logged_in = true ∧ 1 ≤ price ∧ price ≤ 100 ∧ 1 ≤ volume ∧ volume ≤ 10)) ∧
    (submission_accepted logged_in price volume = false →
      submit_order logged_in username selected_market order_type price volume oid ts s = s) := by
  constructor
  · cases logged_in <;>
      simp [submission_accepted, widget_price_ok, widget_volume_ok]
    omega
  · intro h
    simp [submit_order, h]

/-- Witness for C4's amended validation theorem: an unauthenticated
submission leaves the state unchanged. -/
theorem c4_boundary_amended_witness :
    submit_order false "Alice" "m1" "buy" 50 5 1 0 ⟨[], []⟩ = ⟨[], []⟩ :=
  (c4_boundary_amended false "Alice" "m1" "buy" 50 5 1 0 ⟨[], []⟩).2 (by decide)

/-- Claim C5: `best_bid` returns a resident buy order beaten by no other
(highest price, ties to the earliest timestamp) and is `none` exactly when
the buy side is empty; dually for `best_ask`; consequently the resting buy
at 80 crossed by sells at 50 and 55 is consumed at price 50 before 55. -/
theorem c5_best_bid_ask :
    (∀ (m : String) (book : List Order) (b : Order), best_bid m book = some b →
      b ∈ buySide m book ∧
      ∀ x ∈ buySide m book,
        x.price < b.price ∨ (x.price = b.price ∧ b.timestamp ≤ x.timestamp)) ∧
    (∀ (m : String) (book : List Order), best_bid m book = none ↔ buySide m book = []) ∧
    (∀ (m : String) (book : List Order) (a : Order), best_ask m book = some a →
      a ∈ sellSide m book ∧
      ∀ x ∈ sellSide m book,
        a.price < x.price ∨ (x.price = a.price ∧ a.timestamp ≤ x.timestamp)) ∧
    (∀ (m : String) (book : List Order), best_ask m book = none ↔ sellSide m book = []) ∧
    match_orders "m1" cexBook =
      ([⟨"m1", 1, 2, "Alice", "Bob", 50, 1⟩, ⟨"m1", 1, 3, "Alice", "Carol", 55, 3⟩], []) := by
  refine ⟨?_, ?_, ?_, ?_, by decide⟩
  · intro m book b h
    exact ⟨pickBest_mem h, best_bid_opt h⟩
  · intro m book
    exact pickBest_eq_none
  · intro m book a h
    exact ⟨pickBest_mem h, best_ask_opt h⟩
  · intro m book
    exact pickBest_eq_none

/-- Witness for C5 on the exhaustive-crossing book. -/
theorem c5_best_bid_ask_witness :
    cexBuy ∈ buySide "m1" cexBook ∧
    ∀ x ∈ buySide "m1" cexBook,
      x.price < cexBuy.price ∨ (x.price = cexBuy.price ∧ cexBuy.timestamp ≤ x.timestamp) :=
  c5_best_bid_ask.1 "m1" cexBook cexBuy (by decide)

/-- Claim C6 counterexample: on the Dana self-trade book the loop removes
the resting buy order (volume 2) without emitting a trade, so the total
volume removed from the buy side is 2 while the total volume traded is 0 —
the claimed equality fails. -/
theorem c6_conservation_counterexample :
    totalVol (buySide "m1" danaBook) - totalVol (buySide "m1" (match_orders "m1" danaBook).2) ≠
      sumTradeVol (match_orders "m1" danaBook).1 := by
  decide

/-- Claim C6 (amended): under the resident-order invariants (unique ids,
positive volumes), the volume removed from the sell side over a
`match_orders` run equals the total volume traded; the volume removed from
the buy side equals the total traded plus the (nonnegative) volume deleted
by self-trade resolution; all volumes resident afterwards remain positive;
the instrumented loop projects to `match_orders` itself; and per trade, at
the recorded book state each of the pair's two orders is present in the
mutated book with its volume reduced by exactly the trade's volume when
that result is positive, and its order id is removed from the book exactly
when the resulting volume is 0. -/
theorem c6_conservation_amended (m : String) (book : List Order)
    (hu : uniqueIds book) (hpos : allVolPos book) :
    match_orders m book =
      ((matchLoopG m (book.length + 1) book).1, (matchLoopG m (book.length + 1) book).2.1) ∧
    allVolPos (match_orders m book).2 ∧
    0 ≤ selfRemovedVol m book ∧
    totalVol (buySide m book) =
      totalVol (buySide m (match_orders m book).2) + sumTradeVol (match_orders m book).1 +
        selfRemovedVol m book ∧
    totalVol (sellSide m book) =
      totalVol (sellSide m (match_orders m book).2) + sumTradeVol (match_orders m book).1 ∧
    ((match_orders m book).1 = (match_orders_trace m book).1.map Prod.snd ∧
      ∀ p ∈ (match_orders_trace m book).1,
        ∃ highest_buy lowest_sell,
          best_bid m p.1 = some highest_buy ∧ best_ask m p.1 = some lowest_sell ∧
          p.2 = mkTrade m highest_buy lowest_sell ∧
          ({ highest_buy with volume := highest_buy.volume - p.2.volume } ∈
              tradeBook highest_buy lowest_sell p.1 ↔
            0 < highest_buy.volume - p.2.volume) ∧
          (highest_buy.order_id ∉
              (tradeBook highest_buy lowest_sell p.1).map Order.order_id ↔
            highest_buy.volume - p.2.volume = 0) ∧
          ({ lowest_sell with volume := lowest_sell.volume - p.2.volume } ∈
              tradeBook highest_buy lowest_sell p.1 ↔
            0 < lowest_sell.volume - p.2.volume) ∧
          (lowest_sell.order_id ∉
              (tradeBook highest_buy lowest_sell p.1).map Order.order_id ↔
            lowest_sell.volume - p.2.volume = 0)) := by
  have hG := matchLoopG_eq m (book.length + 1) book
  have h1 : (match_orders m book).1 = (matchLoopG m (book.length + 1) book).1 :=
    congrArg Prod.fst hG
  have h2 : (match_orders m book).2 = (matchLoopG m (book.length + 1) book).2.1 :=
    congrArg Prod.snd hG
  obtain ⟨-, hpos', hg, hbuy, hsell⟩ :=
    matchLoopG_conservation m (book.length + 1) book hu hpos
  refine ⟨hG, ?_, hg, ?_, ?_, ?_, ?_⟩
  · rw [h2]
    exact hpos'
  · rw [h1, h2]
    exact hbuy
  · rw [h1, h2]
    exact hsell
  · exact congrArg Prod.fst (matchLoopT_eq m (book.length + 1) book)
  · intro p hp
    obtain ⟨highest_buy, lowest_sell, hbid, hask, -, -, hpe⟩ :=
      matchLoopT_src m (book.length + 1) book p hp
    obtain ⟨hup, -⟩ := matchLoopT_inv m (book.length + 1) book hu hpos p hp
    obtain ⟨hbm, -, hbt⟩ := best_bid_mem hbid
    obtain ⟨lsm, -, lst⟩ := best_ask_mem hask
    have hne : highest_buy ≠ lowest_sell := by
      intro hEq
      rw [hEq, lst] at hbt
      exact absurd hbt (by decide)
    have hneid : lowest_sell.order_id ≠ highest_buy.order_id := by
      intro hEq
      exact hne (ids_injective hup lsm hbm hEq).symm
    have hv : p.2.volume = min highest_buy.volume lowest_sell.volume := by
      rw [hpe]
      rfl
    obtain ⟨e1, e2, e3, e4⟩ := tradeBook_entries hup hbm lsm hneid
    refine ⟨highest_buy, lowest_sell, hbid, hask, hpe, ?_, ?_, ?_, ?_⟩
    · rw [hv]
      exact e1
    · rw [hv]
      exact e2
    · rw [hv]
      exact e3
    · rw [hv]
      exact e4

/-- Witness for C6's amended conservation on the Dana book. -/
theorem c6_conservation_amended_witness : (0 : Int) ≤ selfRemovedVol "m1" danaBook :=
  (c6_conservation_amended "m1" danaBook (by decide) (by decide)).2.2.1

/-- Claim C7: the matching loop terminates on every finite book — any fuel
beyond the number of resident orders computes the same fixed point as
`match_orders`, because every non-exiting iteration removes at least one
order; moreover, under the resident-order invariants, every non-exiting
iteration strictly decreases both the total resident volume and the number
of resident orders. -/
theorem c7_termination (m : String) (book : List Order) (fuel : Nat)
    (hfuel : book.length < fuel) :
    matchLoop m fuel book = match_orders m book ∧
    (∀ highest_buy lowest_sell, uniqueIds book → allVolPos book →
      best_bid m book = some highest_buy → best_ask m book = some lowest_sell →
      lowest_sell.price ≤ highest_buy.price →
      totalVol (nextBook highest_buy lowest_sell book) < totalVol book ∧
      (nextBook highest_buy lowest_sell book).length < book.length) := by
  refine ⟨matchLoop_eq_match_orders hfuel, ?_⟩
  intro highest_buy lowest_sell hu hpos hbid hask hcross
  obtain ⟨hbm, hbmk, hbt⟩ := best_bid_mem hbid
  obtain ⟨lsm, lsmk, lst⟩ := best_ask_mem hask
  unfold nextBook
  by_cases hself : highest_buy.user_id = lowest_sell.user_id ∧ highest_buy.user_id ≠ "Charlie"
  · rw [if_pos hself]
    constructor
    · rw [totalVol_deleteOne_mem hu hbm]
      have := hpos _ hbm
      linarith
    · exact deleteOne_length_lt (List.mem_map_of_mem _ hbm)
  · rw [if_neg hself]
    constructor
    · obtain ⟨-, -, -, -, htot⟩ := tradeBook_facts m hu hpos hbm hbmk hbt lsm lsmk lst
      rw [htot]
      have h1 : 0 < highest_buy.volume := hpos _ hbm
      have h2 : 0 < lowest_sell.volume := hpos _ lsm
      have h3 : 0 < min highest_buy.volume lowest_sell.volume := lt_min h1 h2
      linarith
    · exact tradeBook_length_lt (List.mem_map_of_mem _ hbm) (List.mem_map_of_mem _ lsm)

/-- Witness for C7 on the partial-fill book. -/
theorem c7_termination_witness :
    matchLoop "m1" 3 aliceBook = match_orders "m1" aliceBook ∧
    (totalVol (nextBook aliceBuy bobSell aliceBook) < totalVol aliceBook ∧
      (nextBook aliceBuy bobSell aliceBook).length < aliceBook.length) :=
  ⟨(c7_termination "m1" aliceBook 3 (by decide)).1,
    (c7_termination "m1" aliceBook 3 (by decide)).2 aliceBuy bobSell (by decide) (by decide)
      (by decide) (by decide) (by decide)⟩

/-- Claim C8: running `match_orders` again on the book it produced, with no
orders inserted in between, emits no trades and leaves the book unchanged:
the result of a run is a fixed point. -/
theorem c8_idempotent (m : String) (book : List Order) :
    match_orders m (match_orders m book).2 = ([], (match_orders m book).2) :=
  matchLoop_of_noCross (match_orders_noCross m book) _

/-- Claim C9: `match_orders` is deterministic — two runs on the same book
state, differing only in the opaque trade-identifier source, produce the
same trades (prices, volumes, order references, identities, in the same
order) and the same final book. -/
theorem c9_deterministic (m : String) (g1 g2 : Nat → String) (book : List Order) :
    (match_orders_run m g1 book).1.map Prod.snd = (match_orders_run m g2 book).1.map Prod.snd ∧
    (match_orders_run m g1 book).2 = (match_orders_run m g2 book).2 := by
  constructor
  · unfold match_orders_run
    dsimp only
    rw [attachIds_map_snd, attachIds_map_snd]
  · rfl

/-- Claim C10: in the sequential model, the inline single-shot block the
handler runs after `match_orders` is a no-op (the re-fetched best pair
never crosses at a fixed point), so the handler equals inserting the order
and running `match_orders` alone. -/
theorem c10_handler_refines (logged_in : Bool)
    (username selected_market order_type : String) (price volume : Int)
    (oid ts : Nat) (s : ExchangeState) :
    submit_order logged_in username selected_market order_type price volume oid ts s =
      submit_order_no_block logged_in username selected_market order_type price volume oid ts s := by
  unfold submit_order submit_order_no_block
  by_cases h : submission_accepted logged_in price volume = true
  · rw [if_pos h, if_pos h]
    dsimp only
    exact inline_block_no_op (match_orders_noCross _ _)
  · rw [if_neg h, if_neg h]

end ThesisBetting
